import Mathlib

/-!
Shallow embedding of the ClipForge render pipeline (config.py, animation_curves.py,
ffmpeg_expressions.py, timeline_expressions.py, layouts.py, stickman_animations.py,
clip_specs.py, renderer_v2.py, main.py) over exact rational arithmetic.
Python floats are rendered as exact rationals; `int(x)` on nonnegative values is
floor division; Python dicts become association lists queried by `List.lookup`.
-/

namespace ClipForge

/-! ## config.py -/

def OUT_W : ℕ := 1920
def OUT_H : ℕ := 1080
def FPS : ℕ := 25
def SAFE_H : ℕ := 864
def ZOOM_START : ℚ := 1
def ZOOM_END : ℚ := 106/100
def SLIDE_DURATION : ℚ := 8/10
def TEXT_SIZE : ℕ := 52
def TEXT_IMAGE_MARGIN : ℤ := 16
def STICKMAN_SIZE : ℕ := (1024 * 6) / 10
def STICKMAN_MARGIN_X : ℕ := 25
def STICKMAN_TEXT_MARGIN : ℕ := 7
def DISABLE_ZOOM_ON_GIFS : Bool := true
def RESERVED_LEFT : ℕ := STICKMAN_MARGIN_X + STICKMAN_SIZE + 40
def RIGHT_MARGIN : ℕ := 100
def CONTENT_W : ℕ := OUT_W - RESERVED_LEFT - RIGHT_MARGIN
def CONTENT_H : ℕ := SAFE_H

/-- Modelled from the spec: `layouts.py` imports `LEFT_MARGIN` from `config`, but the
`config.py` under `src/` does not define it.  Spec section 4.1 says the content area
reserves "the opposite margin" symmetric to `RIGHT_MARGIN`, so we take the same value. -/
def LEFT_MARGIN : ℕ := 100

/-- Modelled from the spec: `layouts.py` imports `RESERVED_RIGHT` from `config`, but the
`config.py` under `src/` does not define it.  Spec section 4.1 says the reserved side is
"character box size + padding", symmetric to `RESERVED_LEFT`. -/
def RESERVED_RIGHT : ℕ := STICKMAN_MARGIN_X + STICKMAN_SIZE + 40

/-! ## clip_specs.py (data model) -/

structure KeyframeSpec where
  time : ℚ
  value : List (String × ℚ)
  easing : String := "linear"
deriving Repr, DecidableEq

structure BlurEntrySpec where
  enabled : Bool := false
  duration : Option ℚ := none
  strength : Option ℚ := none
  method : String := "tblend"
deriving Repr, DecidableEq

structure ImageLayer where
  path : String
  zoom_enabled : Bool := false
  slide_direction : Option String := none
  blur_entry : Option BlurEntrySpec := none
  keyframes : List KeyframeSpec := []
deriving Repr, DecidableEq

structure StickmanAnim where
  name : String
  direction : Option String := none
deriving Repr, DecidableEq

structure StickmanLayer where
  path : String
  speech : String := ""
  anim : Option StickmanAnim := none
deriving Repr, DecidableEq

structure EffectWindowSpec where
  name : String
  start : ℚ
  stop : ℚ
  params : List (String × ℚ) := []
deriving Repr, DecidableEq

structure TrackSpec where
  track_id : String
  kind : String
  target_id : Option String := none
  keyframes : List KeyframeSpec := []
  effects : List EffectWindowSpec := []
deriving Repr, DecidableEq

structure TimelineSpec where
  duration : ℚ
  fps : ℕ
  tracks : List TrackSpec := []
deriving Repr, DecidableEq

structure ClipSpec where
  duration : ℚ
  fps : ℕ
  width : ℕ
  height : ℕ
  layout : String
  stickman_position : String := "left"
  images : List ImageLayer := []
  stickman : Option StickmanLayer := none
  text : Option String := none
  text_anchor : Option String := none
  text_margin : Option ℤ := none
  text_anchor_slot : Option ℕ := none
  timeline : Option TimelineSpec := none
deriving Repr, DecidableEq

/-- ASCII lowering, `str.lower()` (kernel-reducible, unlike `String.toLower`). -/
def py_lower (s : String) : String := String.mk (s.data.map Char.toLower)

def is_py_space (c : Char) : Bool :=
  c = ' ' || c = '\t' || c = '\n' || c = '\r' || c = '\x0b' || c = '\x0c'

/-- `str.strip()` (kernel-reducible, unlike `String.trim`). -/
def py_strip (s : String) : String :=
  String.mk (((s.data.dropWhile is_py_space).reverse.dropWhile is_py_space).reverse)

/-- `str.endswith(suffix)` (kernel-reducible). -/
def py_endswith (s suffix : String) : Bool := suffix.data.isSuffixOf s.data

/-- Truthiness of an optional Python string (`None` and `""` are falsy). -/
def truthy_str : Option String → Bool
  | none => false
  | some s => s ≠ ""

/-! ## animation_curves.py -/

structure InterpolatedFrame where
  time : ℚ
  values : List (String × ℚ)
deriving Repr, DecidableEq

def clamp (value min_value max_value : ℚ) : ℚ :=
  max min_value (min value max_value)

def ease_linear (t : ℚ) : ℚ := t

def ease_in_quad (t : ℚ) : ℚ := t * t

def ease_out_quad (t : ℚ) : ℚ := 1 - (1 - t) * (1 - t)

def ease_in_out_quad (t : ℚ) : ℚ :=
  if t < 1/2 then 2 * t * t else 1 - (-2 * t + 2) ^ 2 / 2

def ease_in_cubic (t : ℚ) : ℚ := t * t * t

def ease_out_cubic (t : ℚ) : ℚ := 1 - (1 - t) ^ 3

def ease_in_out_cubic (t : ℚ) : ℚ :=
  if t < 1/2 then 4 * t * t * t else 1 - (-2 * t + 2) ^ 3 / 2

def EASING_MAP : List (String × (ℚ → ℚ)) :=
  [("linear", ease_linear),
   ("ease_in", ease_in_quad),
   ("ease_out", ease_out_quad),
   ("ease_in_out", ease_in_out_quad),
   ("cubic_in", ease_in_cubic),
   ("cubic_out", ease_out_cubic),
   ("cubic_in_out", ease_in_out_cubic)]

def EASING_NAMES : List String :=
  ["linear", "ease_in", "ease_out", "ease_in_out", "cubic_in", "cubic_out", "cubic_in_out"]

/-- `EASING_MAP.get(easing, _ease_linear)` -/
def ease_lookup (easing : String) : ℚ → ℚ :=
  (EASING_MAP.lookup easing).getD ease_linear

def kfLe (a b : KeyframeSpec) : Prop := a.time ≤ b.time

instance : DecidableRel kfLe := fun a b => inferInstanceAs (Decidable (a.time ≤ b.time))

instance : IsTotal KeyframeSpec kfLe := ⟨fun a b => le_total a.time b.time⟩

instance : IsTrans KeyframeSpec kfLe := ⟨fun _ _ _ h h2 => le_trans h h2⟩

/-- `sorted(keyframes, key=lambda kf: kf.time)` (Python sort is stable; so is insertion sort). -/
def sorted_keyframes (keyframes : List KeyframeSpec) : List KeyframeSpec :=
  keyframes.insertionSort kfLe

def interpolate_value (start stop t : ℚ) (easing : String) : ℚ :=
  let ease_fn := ease_lookup easing
  let factor := ease_fn (clamp t 0 1)
  start + (stop - start) * factor

/-- The bracket search `for idx in range(len(ordered)-1): ... if current.time <= t <= nxt.time`. -/
def find_segment (t : ℚ) : List KeyframeSpec → Option (KeyframeSpec × KeyframeSpec)
  | current :: nxt :: rest =>
      if current.time ≤ t ∧ t ≤ nxt.time then some (current, nxt)
      else find_segment t (nxt :: rest)
  | _ => none

/-- Loop body of `interpolate_keyframes` for a bracketing segment: span floor, per-key union,
missing-side defaulting, and the segment-start easing. -/
def segment_values (current nxt : KeyframeSpec) (t : ℚ) : List (String × ℚ) :=
  let span := max (1/10000) (nxt.time - current.time)
  let ratio := (t - current.time) / span
  let keys := (current.value.map Prod.fst ++ nxt.value.map Prod.fst).dedup
  keys.map fun key =>
    let start_val := (current.value.lookup key).getD ((nxt.value.lookup key).getD 0)
    let end_val := (nxt.value.lookup key).getD start_val
    (key, interpolate_value start_val end_val ratio current.easing)

/-- Body of `interpolate_keyframes` after sorting, on a non-empty ordered list
(`ordered[-1]` is `getLast`). -/
def interpolate_sorted (first : KeyframeSpec) (rest : List KeyframeSpec) (t : ℚ) :
    Option InterpolatedFrame :=
  if t ≤ first.time then some ⟨t, first.value⟩
  else if ((first :: rest).getLast (List.cons_ne_nil first rest)).time ≤ t then
    some ⟨t, ((first :: rest).getLast (List.cons_ne_nil first rest)).value⟩
  else
    match find_segment t (first :: rest) with
    | some (current, nxt) => some ⟨t, segment_values current nxt t⟩
    | none => none

def interpolate_keyframes (keyframes : List KeyframeSpec) (t : ℚ) : Option InterpolatedFrame :=
  match sorted_keyframes keyframes with
  | [] => none
  | first :: rest => interpolate_sorted first rest t

/-! ## Expression AST

The Python code builds ffmpeg expression strings.  We embed each built string as a
syntax tree mirroring the string structure, with an evaluator giving the engine
semantics (`lt`/`if`/`between`/`max`/`min` as in the ffmpeg expression language;
`sin` and `PI` are uninterpreted parameters of the environment). -/

inductive FExpr where
  | lit (q : ℚ)
  | varT
  | varN
  | varW
  | varH
  | varLW
  | varLH
  | varTW
  | varTH
  | piC
  | neg (a : FExpr)
  | add (a b : FExpr)
  | sub (a b : FExpr)
  | mul (a b : FExpr)
  | div (a b : FExpr)
  | fmax (a b : FExpr)
  | fmin (a b : FExpr)
  | ifLt (a b x y : FExpr)
  | ifBetween (v lo hi x y : FExpr)
  | sinE (a : FExpr)
deriving Repr, DecidableEq

structure EvalEnv where
  t : ℚ := 0
  n : ℚ := 0
  bigW : ℚ := 0
  bigH : ℚ := 0
  smallW : ℚ := 0
  smallH : ℚ := 0
  textW : ℚ := 0
  textH : ℚ := 0
  piV : ℚ := 0
  sinF : ℚ → ℚ := fun _ => 0

def FExpr.eval (env : EvalEnv) : FExpr → ℚ
  | .lit q => q
  | .varT => env.t
  | .varN => env.n
  | .varW => env.bigW
  | .varH => env.bigH
  | .varLW => env.smallW
  | .varLH => env.smallH
  | .varTW => env.textW
  | .varTH => env.textH
  | .piC => env.piV
  | .neg a => -(a.eval env)
  | .add a b => a.eval env + b.eval env
  | .sub a b => a.eval env - b.eval env
  | .mul a b => a.eval env * b.eval env
  | .div a b => a.eval env / b.eval env
  | .fmax a b => max (a.eval env) (b.eval env)
  | .fmin a b => min (a.eval env) (b.eval env)
  | .ifLt a b x y => if a.eval env < b.eval env then x.eval env else y.eval env
  | .ifBetween v lo hi x y =>
      if lo.eval env ≤ v.eval env ∧ v.eval env ≤ hi.eval env then x.eval env else y.eval env
  | .sinE a => env.sinF (a.eval env)

/-! ## ffmpeg_expressions.py -/

structure EasedExpression where
  expr : FExpr
  start : ℚ
  stop : ℚ
deriving Repr, DecidableEq

/-- `f"max({min_val},min({expr},{max_val}))"` -/
def clamp_expr (e : FExpr) (min_val max_val : ℚ) : FExpr :=
  .fmax (.lit min_val) (.fmin e (.lit max_val))

/-- `f"({time_var}-{start})/{duration}"` clamped to `[0,1]` with floored duration. -/
def normalize_time_expr (start stop : ℚ) : FExpr :=
  let duration := max (1/10000) (stop - start)
  clamp_expr (.div (.sub .varT (.lit start)) (.lit duration)) 0 1

/-- `EASING_EXPRESSIONS`: each format template becomes a function substituting the
normalized-time subexpression for every `{t}` occurrence. -/
def EASING_EXPRESSIONS : List (String × (FExpr → FExpr)) :=
  [("linear", fun t => t),
   ("ease_in", fun t => .mul t t),
   ("ease_out", fun t => .sub (.lit 1) (.mul (.sub (.lit 1) t) (.sub (.lit 1) t))),
   ("ease_in_out", fun t =>
      .ifLt t (.lit (1/2))
        (.mul (.mul (.lit 2) t) t)
        (.sub (.lit 1)
          (.div (.mul (.add (.mul (.lit (-2)) t) (.lit 2)) (.add (.mul (.lit (-2)) t) (.lit 2)))
            (.lit 2)))),
   ("cubic_in", fun t => .mul (.mul t t) t),
   ("cubic_out", fun t =>
      .sub (.lit 1)
        (.mul (.mul (.sub (.lit 1) t) (.sub (.lit 1) t)) (.sub (.lit 1) t))),
   ("cubic_in_out", fun t =>
      .ifLt t (.lit (1/2))
        (.mul (.mul (.mul (.lit 4) t) t) t)
        (.sub (.lit 1)
          (.div
            (.mul
              (.mul (.add (.mul (.lit (-2)) t) (.lit 2)) (.add (.mul (.lit (-2)) t) (.lit 2)))
              (.add (.mul (.lit (-2)) t) (.lit 2)))
            (.lit 2))))]

/-- `build_eased_value_expr` (the `time_var` is always the engine time `t` here). -/
def build_eased_value_expr (start_value end_value start_time end_time : ℚ)
    (easing : String := "linear") : EasedExpression :=
  let normalized := normalize_time_expr start_time end_time
  let easing_expr := (EASING_EXPRESSIONS.lookup easing).getD (fun t => t)
  let eased := easing_expr normalized
  let expr : FExpr := .add (.lit start_value) (.mul (.sub (.lit end_value) (.lit start_value)) eased)
  ⟨expr, start_time, end_time⟩

/-! ## timeline_expressions.py -/

/-- The usable adjacent pairs collected by the loop in `build_piecewise_expr`
(pairs where both keyframes define the value key). -/
def piece_parts (value_key : String) : List KeyframeSpec → List (ℚ × ℚ × FExpr)
  | a :: b :: rest =>
      (match a.value.lookup value_key, b.value.lookup value_key with
       | some start_val, some end_val =>
           [(a.time, b.time, (build_eased_value_expr start_val end_val a.time b.time a.easing).expr)]
       | _, _ => []) ++ piece_parts value_key (b :: rest)
  | _ => []

/-- `build_piecewise_expr`: nested `if(between(t,start,end), eased, ...)` ending in the
static fallback. -/
def build_piecewise_expr (keyframes : List KeyframeSpec) (value_key : String)
    (fallback : FExpr) : FExpr :=
  let ordered := sorted_keyframes keyframes
  if ordered.length < 2 then fallback
  else
    let parts := piece_parts value_key ordered
    if parts.isEmpty then fallback
    else
      parts.foldr
        (fun part acc => .ifBetween .varT (.lit part.1) (.lit part.2.1) part.2.2 acc)
        fallback

/-! ## layouts.py -/

structure ImageSlot where
  target_w : ℕ
  target_h : ℕ
  x_expr : FExpr
  y_expr : FExpr
deriving Repr, DecidableEq

structure LayoutResult where
  name : String
  image_slots : List ImageSlot
  stickman_pos : Option (FExpr × FExpr)
deriving Repr, DecidableEq

/-- `"(H-h)/2"` -/
def centerYExpr : FExpr := .div (.sub .varH .varLH) (.lit 2)

/-- `"(W-w)/2"` -/
def centerXExpr : FExpr := .div (.sub .varW .varLW) (.lit 2)

def normalize_stickman_side (stickman_side : String) : String :=
  let side := py_lower (py_strip (if stickman_side = "" then "left" else stickman_side))
  if side = "right" then "right" else "left"

def content_area (use_stickman : Bool) (stickman_side : String) : ℕ × ℕ :=
  if !use_stickman then (0, OUT_W)
  else
    let side := normalize_stickman_side stickman_side
    if side = "right" then (LEFT_MARGIN, OUT_W - LEFT_MARGIN - RESERVED_RIGHT)
    else (RESERVED_LEFT, OUT_W - RESERVED_LEFT - RIGHT_MARGIN)

def stickman_position (use_stickman : Bool) (stickman_side : String) :
    Option (FExpr × FExpr) :=
  if !use_stickman then none
  else
    let side := normalize_stickman_side stickman_side
    if side = "right" then
      some (.sub (.sub .varW .varLW) (.lit STICKMAN_MARGIN_X), centerYExpr)
    else some (.lit STICKMAN_MARGIN_X, centerYExpr)

def legacy_single (use_stickman : Bool) (stickman_side : String) : LayoutResult :=
  let ca := content_area use_stickman stickman_side
  let content_x := ca.1
  let content_w := ca.2
  let slot : ImageSlot :=
    if use_stickman then
      ⟨content_w, CONTENT_H,
       .add (.lit content_x) (.div (.sub (.lit content_w) .varLW) (.lit 2)),
       centerYExpr⟩
    else ⟨OUT_W, SAFE_H, centerXExpr, centerYExpr⟩
  ⟨"legacy_single", [slot], stickman_position use_stickman stickman_side⟩

def image_center_only : LayoutResult :=
  ⟨"image_center_only", [⟨OUT_W, SAFE_H, centerXExpr, centerYExpr⟩], none⟩

def stickman_center_only (use_stickman : Bool) : LayoutResult :=
  ⟨"stickman_center_only", [], if use_stickman then some (centerXExpr, centerYExpr) else none⟩

def two_images_center (use_stickman : Bool) (stickman_side : String) : LayoutResult :=
  let gap : ℕ := 40
  let tw := if use_stickman then content_area use_stickman stickman_side
            else (0, OUT_W)
  let offset_x := tw.1
  let total_w := tw.2
  let slot_w := (total_w - gap) / 2
  let slot_h := SAFE_H
  let left_x := offset_x + (total_w - (2 * slot_w + gap)) / 2
  let right_x := left_x + slot_w + gap
  ⟨"two_images_center",
   [⟨slot_w, slot_h, .lit left_x, centerYExpr⟩,
    ⟨slot_w, slot_h, .lit right_x, centerYExpr⟩],
   stickman_position use_stickman stickman_side⟩

def stickman_left_3img (use_stickman : Bool) (stickman_side : String) : LayoutResult :=
  let ca := content_area use_stickman stickman_side
  let content_x := ca.1
  let content_w := ca.2
  let gap : ℕ := 24
  let slot_w := content_w
  let slot_h := (SAFE_H - 2 * gap) / 3
  let total_h := slot_h * 3 + gap * 2
  let top_y := (OUT_H - total_h) / 2
  let x_expr : FExpr := .add (.lit content_x) (.div (.sub (.lit content_w) (.lit slot_w)) (.lit 2))
  ⟨"stickman_left_3img",
   [⟨slot_w, slot_h, x_expr, .lit top_y⟩,
    ⟨slot_w, slot_h, x_expr, .lit (top_y + slot_h + gap)⟩,
    ⟨slot_w, slot_h, x_expr, .lit (top_y + (slot_h + gap) * 2)⟩],
   stickman_position use_stickman stickman_side⟩

def insufficient_warning (layout : LayoutResult) (image_count : ℕ) : String :=
  "Imagens insuficientes para layout " ++ layout.name ++ ". Esperado " ++
    toString layout.image_slots.length ++ ", recebido " ++ toString image_count ++ "."

def resolve_layout (layout_name : String) (use_stickman : Bool) (image_count : ℕ)
    (stickman_side : String := "left") : LayoutResult × List String :=
  let normalized := py_lower (py_strip (if layout_name = "" then "legacy_single" else layout_name))
  let normalized_side := normalize_stickman_side stickman_side
  if normalized = "image_center_only" then
    let layout := image_center_only
    let warnings : List String :=
      (if use_stickman then ["Layout image_center_only ignora stickman."] else []) ++
      (if use_stickman ∧ normalized_side = "right" then
        ["Stickman à direita ignorado (layout image_center_only)."] else []) ++
      (if image_count < layout.image_slots.length then [insufficient_warning layout image_count]
       else [])
    (layout, warnings)
  else if normalized = "stickman_center_only" then
    if !use_stickman then
      (legacy_single false normalized_side,
       ["Layout stickman_center_only sem stickman. Usando legacy_single."])
    else
      (stickman_center_only true,
       if normalized_side = "right" then
         ["Stickman à direita ignorado (layout stickman_center_only)."]
       else [])
  else
    let lw : LayoutResult × List String :=
      if normalized = "two_images_center" then
        (two_images_center use_stickman normalized_side, [])
      else if normalized = "stickman_left_3img" then
        if !use_stickman then
          (legacy_single false normalized_side,
           ["Layout stickman_left_3img sem stickman. Usando legacy_single."])
        else (stickman_left_3img true normalized_side, [])
      else if normalized = "legacy_single" then
        (legacy_single use_stickman normalized_side, [])
      else
        (legacy_single use_stickman normalized_side,
         ["Layout desconhecido \x27" ++ layout_name ++ "\x27. Usando legacy_single."])
    if normalized = "stickman_left_3img" ∧ !use_stickman then lw
    else
      (lw.1,
       lw.2 ++
         (if image_count < lw.1.image_slots.length then [insufficient_warning lw.1 image_count]
          else []))

/-! ## stickman_animations.py -/

def build_stickman_animation (anim : Option StickmanAnim) (total_frames : ℕ)
    (final_x final_y : FExpr) : FExpr × FExpr × FExpr :=
  match anim with
  | none => (final_x, final_y, .lit 1)
  | some a =>
    let name := py_lower (py_strip a.name)
    let total_frames := max 1 total_frames
    if name = "walk_to_final" then
      let walk_frames : ℕ := max 1 ((total_frames * 6) / 10)
      let start_x : FExpr := .sub final_x (.lit 200)
      let x_expr : FExpr :=
        .ifLt .varN (.lit walk_frames)
          (.add start_x (.div (.mul (.sub final_x start_x) .varN) (.lit walk_frames)))
          final_x
      let y_expr : FExpr :=
        .ifLt .varN (.lit walk_frames)
          (.add final_y
            (.mul (.lit 6) (.sinE (.div (.mul (.mul (.lit 2) .piC) .varN) (.lit 10)))))
          final_y
      (x_expr, y_expr, .lit 1)
    else if name = "pop_to_final" then
      let pop_frames : ℕ := max 1 ((total_frames * 3) / 10)
      let scale_expr : FExpr :=
        .ifLt .varN (.lit pop_frames)
          (.add (.lit (7/10)) (.div (.mul (.lit (3/10)) .varN) (.lit pop_frames)))
          (.lit 1)
      (final_x, final_y, scale_expr)
    else if name = "slide_to_final" then
      let direction := py_lower (py_strip (a.direction.getD "left"))
      let direction := if direction = "" then "left" else direction
      let slide_frames : ℕ := max 1 ((total_frames * 4) / 10)
      let start_x : FExpr :=
        if direction = "right" then .add .varW (.lit STICKMAN_SIZE)
        else .neg (.lit STICKMAN_SIZE)
      let x_expr : FExpr :=
        .ifLt .varN (.lit slide_frames)
          (.add start_x (.div (.mul (.sub final_x start_x) .varN) (.lit slide_frames)))
          final_x
      (x_expr, final_y, .lit 1)
    else (final_x, final_y, .lit 1)

/-! ## renderer_v2.py

Each `filters.append`/`filters +=` element of `render_clip` becomes one `PlanNode`;
each `-i` input becomes one `InputNode`.  The external `ffprobe` size probe is an
explicit function argument (it degrades to the target size on failure inside the
Python helper; a probe argument models any such outcome).  The final `ffmpeg`
invocation is external and out of scope: the compiled plan is the result. -/

def ceilNat (q : ℚ) : ℕ := (⌈q⌉).toNat

def is_gif (path : String) : Bool := py_endswith (py_lower path) ".gif"

def escape_text (text : String) : String :=
  ((((text.replace "\\" "\\\\").replace "\x27" "\\\x27").replace ":" "\\:").replace "%" "\\%")

def replace_expr_vars : FExpr → ℕ → ℕ → FExpr
  | .varLW, width, _ => .lit width
  | .varLH, _, height => .lit height
  | .neg a, w, h => .neg (replace_expr_vars a w h)
  | .add a b, w, h => .add (replace_expr_vars a w h) (replace_expr_vars b w h)
  | .sub a b, w, h => .sub (replace_expr_vars a w h) (replace_expr_vars b w h)
  | .mul a b, w, h => .mul (replace_expr_vars a w h) (replace_expr_vars b w h)
  | .div a b, w, h => .div (replace_expr_vars a w h) (replace_expr_vars b w h)
  | .fmax a b, w, h => .fmax (replace_expr_vars a w h) (replace_expr_vars b w h)
  | .fmin a b, w, h => .fmin (replace_expr_vars a w h) (replace_expr_vars b w h)
  | .ifLt a b x y, w, h =>
      .ifLt (replace_expr_vars a w h) (replace_expr_vars b w h)
        (replace_expr_vars x w h) (replace_expr_vars y w h)
  | .ifBetween v lo hi x y, w, h =>
      .ifBetween (replace_expr_vars v w h) (replace_expr_vars lo w h)
        (replace_expr_vars hi w h) (replace_expr_vars x w h) (replace_expr_vars y w h)
  | .sinE a, w, h => .sinE (replace_expr_vars a w h)
  | e, _, _ => e

def scaled_image_size (probe : String → ℕ → ℕ → ℕ × ℕ) (path : String)
    (target_w target_h : ℕ) (zoom_enabled : Bool) : ℕ × ℕ :=
  if zoom_enabled then (target_w, target_h) else probe path target_w target_h

inductive InputNode where
  | gifLoop (path : String)
  | imageLoop (fps : ℕ) (path : String)
  | bgColor (width height fps : ℕ) (duration : ℚ)
  | stickLoop (fps : ℕ) (path : String)
deriving Repr, DecidableEq

inductive PlanNode where
  | bgFormat (inputIndex : ℕ)
  | zoomScale (inputIndex canvasW canvasH : ℕ)
  | zoomCanvas (canvasW canvasH fps : ℕ) (duration : ℚ)
  | zoomPrepOverlay
  | zoomPan (zoomDen totalFrames targetW targetH fps : ℕ)
  | plainScale (inputIndex targetW targetH fps : ℕ)
  | blurBoxblur (radius enableEnd : ℚ)
  | blurTmix (frames : ℕ) (enableEnd : ℚ)
  | blurTblend (opacity enableEnd : ℚ)
  | overlayImage (idx : ℕ) (x y : FExpr)
  | drawtextAnchor (text : String) (x y : FExpr)
  | stickScale (inputIndex : ℕ) (scale : FExpr)
  | overlayStick (x y : FExpr)
  | drawtextCenter (text : String)
  | drawtextSpeech (text : String) (stickX : FExpr)
deriving Repr, DecidableEq

def build_entry_blur (blur : BlurEntrySpec) (input_label : String) (duration : ℚ)
    (_fps : ℕ) : List PlanNode × String :=
  let blur_duration := blur.duration.getD SLIDE_DURATION
  if blur_duration ≤ 0 then ([], input_label)
  else
    let blur_duration := min blur_duration duration
    let method := py_lower (py_strip (if blur.method = "" then "tblend" else blur.method))
    if method = "boxblur" then
      ([.blurBoxblur (blur.strength.getD 4) blur_duration], "[img_blur]")
    else if method = "tmix" then
      let frames : ℕ :=
        match blur.strength with
        | none => 3
        | some s => (max 2 (round s)).toNat
      ([.blurTmix frames blur_duration], "[img_blur]")
    else
      let opacity := blur.strength.getD (7/10)
      let opacity := max (1/20) (min opacity 1)
      ([.blurTblend opacity blur_duration], "[img_blur]")

def build_image_filter (image : ImageLayer) (input_index : ℕ) (duration : ℚ)
    (total_frames target_w target_h fps : ℕ) : List PlanNode × String :=
  let isgif := is_gif image.path
  let allow_zoom := image.zoom_enabled && !(isgif && DISABLE_ZOOM_ON_GIFS)
  let base : List PlanNode :=
    if allow_zoom then
      let canvas_w := ceilNat ((target_w : ℚ) * ZOOM_END)
      let canvas_h := ceilNat ((target_h : ℚ) * ZOOM_END)
      let zoom_den := max 1 (total_frames - 1)
      [.zoomScale input_index canvas_w canvas_h,
       .zoomCanvas canvas_w canvas_h fps duration,
       .zoomPrepOverlay,
       .zoomPan zoom_den total_frames target_w target_h fps]
    else [.plainScale input_index target_w target_h fps]
  match image.blur_entry with
  | some blur =>
      if truthy_str image.slide_direction && blur.enabled then
        let bl := build_entry_blur blur "[img]" duration fps
        (base ++ bl.1, bl.2)
      else (base, "[img]")
  | none => (base, "[img]")

def apply_slide (final_x final_y : FExpr) (slide_direction : String) (fps : ℕ) :
    FExpr × FExpr :=
  let sf : ℕ := max 1 (Int.toNat ⌊SLIDE_DURATION * fps⌋)
  if slide_direction = "left" then
    (.ifLt .varN (.lit sf)
       (.sub .varW (.div (.mul (.sub .varW final_x) .varN) (.lit sf))) final_x,
     final_y)
  else if slide_direction = "right" then
    (.ifLt .varN (.lit sf)
       (.add (.neg .varLW) (.div (.mul (.add final_x .varLW) .varN) (.lit sf))) final_x,
     final_y)
  else if slide_direction = "up" then
    (final_x,
     .ifLt .varN (.lit sf)
       (.sub .varH (.div (.mul (.sub .varH final_y) .varN) (.lit sf))) final_y)
  else if slide_direction = "down" then
    (final_x,
     .ifLt .varN (.lit sf)
       (.add (.neg .varLH) (.div (.mul (.add final_y .varLH) .varN) (.lit sf))) final_y)
  else (final_x, final_y)

def apply_slide_text (final_x final_y : FExpr) (slide_direction : String) (fps : ℕ) :
    FExpr × FExpr :=
  let sf : ℕ := max 1 (Int.toNat ⌊SLIDE_DURATION * fps⌋)
  if slide_direction = "left" then
    (.ifLt .varN (.lit sf)
       (.sub .varW (.div (.mul (.sub .varW final_x) .varN) (.lit sf))) final_x,
     final_y)
  else if slide_direction = "right" then
    (.ifLt .varN (.lit sf)
       (.add (.neg .varTW) (.div (.mul (.add final_x .varTW) .varN) (.lit sf))) final_x,
     final_y)
  else if slide_direction = "up" then
    (final_x,
     .ifLt .varN (.lit sf)
       (.sub .varH (.div (.mul (.sub .varH final_y) .varN) (.lit sf))) final_y)
  else if slide_direction = "down" then
    (final_x,
     .ifLt .varN (.lit sf)
       (.add (.neg .varTH) (.div (.mul (.add final_y .varTH) .varN) (.lit sf))) final_y)
  else (final_x, final_y)

structure ImgLoopState where
  filters : List PlanNode
  warnings : List String
  anchored : Option (FExpr × FExpr)
deriving Repr

/-- The `for idx, image in enumerate(spec.images)` loop of `render_clip`. -/
def render_images (probe : String → ℕ → ℕ → ℕ × ℕ) (spec : ClipSpec)
    (layout : LayoutResult) (total_frames : ℕ) (text_anchor : String)
    (text_anchor_slot : ℕ) (text_margin : ℤ) :
    ℕ → List ImageLayer → ImgLoopState → ImgLoopState
  | _, [], st => st
  | idx, image :: rest, st =>
    match layout.image_slots.get? idx with
    | none =>
        render_images probe spec layout total_frames text_anchor text_anchor_slot text_margin
          (idx + 1) rest
          { st with
            warnings := st.warnings ++
              ["Imagem extra ignorada no layout " ++ layout.name ++ ": " ++ image.path] }
    | some slot =>
        let imgf := build_image_filter image idx spec.duration total_frames
          slot.target_w slot.target_h spec.fps
        let base_final_x := slot.x_expr
        let base_final_y := slot.y_expr
        let fxy : FExpr × FExpr :=
          if !image.keyframes.isEmpty then
            (build_piecewise_expr image.keyframes "x" base_final_x,
             build_piecewise_expr image.keyframes "y" base_final_y)
          else
            match image.slide_direction with
            | some d => apply_slide base_final_x base_final_y d spec.fps
            | none => (base_final_x, base_final_y)
        let anchored : Option (FExpr × FExpr) :=
          if truthy_str spec.text && (idx = text_anchor_slot : Bool) &&
              (text_anchor = "top" || text_anchor = "bottom") then
            let scaled := scaled_image_size probe image.path slot.target_w slot.target_h
              image.zoom_enabled
            let base_final_x_expr := replace_expr_vars base_final_x scaled.1 scaled.2
            let base_final_y_expr := replace_expr_vars base_final_y scaled.1 scaled.2
            let text_x : FExpr :=
              .add base_final_x_expr (.div (.sub (.lit scaled.1) .varTW) (.lit 2))
            let text_y : FExpr :=
              if text_anchor = "top" then
                .sub (.sub base_final_y_expr .varTH) (.lit (text_margin : ℚ))
              else
                .fmin (.add (.add base_final_y_expr (.lit (scaled.2 : ℚ))) (.lit (text_margin : ℚ)))
                  (.sub (.sub .varH .varTH) (.lit (TEXT_IMAGE_MARGIN : ℚ)))
            let txy : FExpr × FExpr :=
              match image.slide_direction with
              | some d => apply_slide_text text_x text_y d spec.fps
              | none => (text_x, text_y)
            some txy
          else st.anchored
        render_images probe spec layout total_frames text_anchor text_anchor_slot text_margin
          (idx + 1) rest
          { filters := st.filters ++ imgf.1 ++ [.overlayImage idx fxy.1 fxy.2],
            warnings := st.warnings,
            anchored := anchored }

structure RenderPlan where
  inputs : List InputNode
  filters : List PlanNode
  warnings : List String
  total_frames : ℕ
deriving Repr

def render_clip (probe : String → ℕ → ℕ → ℕ × ℕ) (spec : ClipSpec) : RenderPlan :=
  let total_frames := max 1 (ceilNat (spec.duration * spec.fps))
  let text_anchor := py_lower (py_strip (spec.text_anchor.getD ""))
  let text_anchor_slot := spec.text_anchor_slot.getD 0
  let text_margin := spec.text_margin.getD TEXT_IMAGE_MARGIN
  let rl := resolve_layout spec.layout spec.stickman.isSome spec.images.length
    spec.stickman_position
  let layout := rl.1
  let inputs : List InputNode :=
    (spec.images.map fun image =>
      if is_gif image.path then InputNode.gifLoop image.path
      else InputNode.imageLoop spec.fps image.path)
    ++ [InputNode.bgColor spec.width spec.height spec.fps spec.duration]
    ++ (match spec.stickman with
        | some s => [InputNode.stickLoop spec.fps s.path]
        | none => [])
  let bg_i := spec.images.length
  let stick_i : Option ℕ := if spec.stickman.isSome then some (bg_i + 1) else none
  let st0 : ImgLoopState := ⟨[PlanNode.bgFormat bg_i], rl.2, none⟩
  let st := render_images probe spec layout total_frames text_anchor text_anchor_slot
    text_margin 0 spec.images st0
  let anchorNodes : List PlanNode :=
    match spec.text, st.anchored with
    | some txt, some a =>
        if txt = "" then [] else [.drawtextAnchor (escape_text txt) a.1 a.2]
    | _, _ => []
  let stickNodes : List PlanNode :=
    match spec.stickman, layout.stickman_pos, stick_i with
    | some stickman, some sp, some si =>
        let axy := build_stickman_animation stickman.anim total_frames sp.1 sp.2
        [.stickScale si axy.2.2, .overlayStick axy.1 axy.2.1]
    | _, _, _ => []
  let centerNodes : List PlanNode :=
    if truthy_str spec.text && anchorNodes.isEmpty then
      match spec.text with
      | some txt => [.drawtextCenter (escape_text txt)]
      | none => []
    else []
  let speechNodes : List PlanNode :=
    match spec.stickman, layout.stickman_pos with
    | some stickman, some sp =>
        if stickman.speech = "" then []
        else [.drawtextSpeech (escape_text stickman.speech) sp.1]
    | _, _ => []
  ⟨inputs, st.filters ++ anchorNodes ++ stickNodes ++ centerNodes ++ speechNodes,
   st.warnings, total_frames⟩

def isOverlayNode : PlanNode → Bool
  | .overlayImage _ _ _ => true
  | .overlayStick _ _ => true
  | _ => false

/-! ## main.py (process_job, per-clip stickman resolution) -/

/-- Lines 569-588 of `process_job`: resolving the stickman layer for one clip.
Raising `RuntimeError` is modelled with `Except.error`. -/
def resolve_stickman_layer (use_stickman : Bool) (stickman_pos : Option (FExpr × FExpr))
    (cfg_path : Option String) (cfg_speech : String) (anim : Option StickmanAnim)
    (out_clip : String) : Except String (Option StickmanLayer) :=
  if use_stickman then
    match stickman_pos with
    | none => .ok none
    | some _ =>
        match cfg_path with
        | none => .error ("Stickman não encontrado para clip " ++ out_clip)
        | some p =>
            if p = "" then .error ("Stickman não encontrado para clip " ++ out_clip)
            else .ok (some ⟨p, cfg_speech, anim⟩)
  else .ok none

def validate_keyframes (keyframes : List KeyframeSpec) : List String :=
  (keyframes.foldl
    (fun (acc : List String × Option ℚ) kf =>
      let errs := acc.1
      let errs := if kf.time < 0 then errs ++ ["Keyframe time must be non-negative."] else errs
      let errs :=
        match acc.2 with
        | some last_time =>
            if kf.time < last_time then errs ++ ["Keyframes must be sorted by time."] else errs
        | none => errs
      let errs :=
        if (EASING_MAP.lookup kf.easing).isSome then errs
        else errs ++ ["Unknown easing \x27" ++ kf.easing ++ "\x27."]
      (errs, some kf.time))
    ([], none)).1

/-! ## Helper lemmas: easing lookups and curve facts -/

lemma ease_lookup_linear : ease_lookup "linear" = ease_linear := rfl
lemma ease_lookup_in : ease_lookup "ease_in" = ease_in_quad := rfl
lemma ease_lookup_out : ease_lookup "ease_out" = ease_out_quad := rfl
lemma ease_lookup_in_out : ease_lookup "ease_in_out" = ease_in_out_quad := rfl
lemma ease_lookup_cin : ease_lookup "cubic_in" = ease_in_cubic := rfl
lemma ease_lookup_cout : ease_lookup "cubic_out" = ease_out_cubic := rfl
lemma ease_lookup_cinout : ease_lookup "cubic_in_out" = ease_in_out_cubic := rfl

lemma ease_in_quad_mono {a b : ℚ} (ha : 0 ≤ a) (hab : a ≤ b) :
    ease_in_quad a ≤ ease_in_quad b := by
  unfold ease_in_quad; nlinarith

lemma ease_out_quad_mono {a b : ℚ} (hab : a ≤ b) (hb : b ≤ 1) :
    ease_out_quad a ≤ ease_out_quad b := by
  unfold ease_out_quad; nlinarith

lemma ease_in_out_quad_mono {a b : ℚ} (ha : 0 ≤ a) (hab : a ≤ b) (hb : b ≤ 1) :
    ease_in_out_quad a ≤ ease_in_out_quad b := by
  unfold ease_in_out_quad
  split_ifs with h1 h2 h2
  · nlinarith
  · nlinarith [mul_nonneg (by linarith : (0:ℚ) ≤ 1 - 2*a) (by linarith : (0:ℚ) ≤ 1 + 2*a),
      mul_nonneg (by linarith : (0:ℚ) ≤ 2 - 2*b) (by linarith : (0:ℚ) ≤ 2*b - 1)]
  · linarith
  · nlinarith [mul_nonneg (by linarith : (0:ℚ) ≤ 2 - 2*b) (by linarith : (0:ℚ) ≤ (2 - 2*a) - (2 - 2*b))]

lemma cube_le_cube {c d : ℚ} (hc : 0 ≤ c) (hcd : c ≤ d) : c * c * c ≤ d * d * d := by
  nlinarith [mul_nonneg hc hc, mul_nonneg (mul_nonneg hc hc) hc,
    mul_le_mul hcd hcd hc (by linarith), sq_nonneg (c + d), sq_nonneg (c - d)]

lemma ease_in_cubic_mono {a b : ℚ} (ha : 0 ≤ a) (hab : a ≤ b) :
    ease_in_cubic a ≤ ease_in_cubic b := by
  unfold ease_in_cubic; exact cube_le_cube ha hab

lemma ease_out_cubic_mono {a b : ℚ} (hab : a ≤ b) (hb : b ≤ 1) :
    ease_out_cubic a ≤ ease_out_cubic b := by
  unfold ease_out_cubic
  have h := cube_le_cube (c := 1 - b) (d := 1 - a) (by linarith) (by linarith)
  nlinarith [h]

lemma ease_in_out_cubic_mono {a b : ℚ} (ha : 0 ≤ a) (hab : a ≤ b) (hb : b ≤ 1) :
    ease_in_out_cubic a ≤ ease_in_out_cubic b := by
  unfold ease_in_out_cubic
  split_ifs with h1 h2 h2
  · have h := cube_le_cube ha hab
    nlinarith [h]
  · have hcube_a : a * a * a ≤ (1/2) * (1/2) * (1/2) :=
      cube_le_cube ha (by linarith)
    have hcube_b := cube_le_cube (c := 2 - 2*b) (d := 1) (by linarith) (by linarith)
    nlinarith [hcube_a, hcube_b]
  · linarith
  · have h := cube_le_cube (c := 2 - 2*b) (d := 2 - 2*a) (by linarith) (by linarith)
    nlinarith [h]

/-- C2: each of the seven named easing curves maps 0 to 0 and 1 to 1 and is
monotone non-decreasing on `[0,1]`. -/
theorem easing_curves_endpoints_and_monotone (name : String) (hname : name ∈ EASING_NAMES) :
    ease_lookup name 0 = 0 ∧ ease_lookup name 1 = 1 ∧
    ∀ a b : ℚ, 0 ≤ a → a ≤ b → b ≤ 1 → ease_lookup name a ≤ ease_lookup name b := by
  fin_cases hname
  · exact ⟨rfl, rfl, fun a b _ hab _ => by
      rw [ease_lookup_linear]; exact hab⟩
  · rw [ease_lookup_in]
    refine ⟨by norm_num [ease_in_quad], by norm_num [ease_in_quad],
      fun a b ha hab _ => ease_in_quad_mono ha hab⟩
  · rw [ease_lookup_out]
    refine ⟨by norm_num [ease_out_quad], by norm_num [ease_out_quad],
      fun a b _ hab hb => ease_out_quad_mono hab hb⟩
  · rw [ease_lookup_in_out]
    refine ⟨by norm_num [ease_in_out_quad], by norm_num [ease_in_out_quad],
      fun a b ha hab hb => ease_in_out_quad_mono ha hab hb⟩
  · rw [ease_lookup_cin]
    refine ⟨by norm_num [ease_in_cubic], by norm_num [ease_in_cubic],
      fun a b ha hab _ => ease_in_cubic_mono ha hab⟩
  · rw [ease_lookup_cout]
    refine ⟨by norm_num [ease_out_cubic], by norm_num [ease_out_cubic],
      fun a b _ hab hb => ease_out_cubic_mono hab hb⟩
  · rw [ease_lookup_cinout]
    refine ⟨by norm_num [ease_in_out_cubic], by norm_num [ease_in_out_cubic],
      fun a b ha hab hb => ease_in_out_cubic_mono ha hab hb⟩

/-- C2 witness: the theorem applied to the concrete curve name `"linear"`. -/
theorem easing_curves_witness :
    ease_lookup "linear" 0 = 0 ∧ ease_lookup "linear" 1 = 1 ∧
    ∀ a b : ℚ, 0 ≤ a → a ≤ b → b ≤ 1 → ease_lookup "linear" a ≤ ease_lookup "linear" b :=
  easing_curves_endpoints_and_monotone "linear" (by decide)

/-! ## C5: unknown easing names fall back to linear -/

lemma easing_map_lookup_none {name : String} (h : name ∉ EASING_NAMES) :
    EASING_MAP.lookup name = none := by
  simp only [EASING_NAMES, List.mem_cons, List.not_mem_nil, or_false, not_or] at h
  obtain ⟨h1, h2, h3, h4, h5, h6, h7⟩ := h
  simp [EASING_MAP, List.lookup, beq_eq_false_iff_ne.mpr h1, beq_eq_false_iff_ne.mpr h2,
    beq_eq_false_iff_ne.mpr h3, beq_eq_false_iff_ne.mpr h4, beq_eq_false_iff_ne.mpr h5,
    beq_eq_false_iff_ne.mpr h6, beq_eq_false_iff_ne.mpr h7]

lemma easing_exprs_lookup_none {name : String} (h : name ∉ EASING_NAMES) :
    EASING_EXPRESSIONS.lookup name = none := by
  simp only [EASING_NAMES, List.mem_cons, List.not_mem_nil, or_false, not_or] at h
  obtain ⟨h1, h2, h3, h4, h5, h6, h7⟩ := h
  simp [EASING_EXPRESSIONS, List.lookup, beq_eq_false_iff_ne.mpr h1, beq_eq_false_iff_ne.mpr h2,
    beq_eq_false_iff_ne.mpr h3, beq_eq_false_iff_ne.mpr h4, beq_eq_false_iff_ne.mpr h5,
    beq_eq_false_iff_ne.mpr h6, beq_eq_false_iff_ne.mpr h7]

/-- C5: an easing name outside the seven known names makes the scalar evaluator use the
linear curve, and makes the expression generator produce the same expression as
`"linear"`; both are total functions (this is their value on every such name). -/
theorem unknown_easing_falls_back_to_linear (name : String) (h : name ∉ EASING_NAMES) :
    (∀ start stop t : ℚ,
        interpolate_value start stop t name = start + (stop - start) * ease_linear (clamp t 0 1)) ∧
    (∀ sv ev st et : ℚ,
        build_eased_value_expr sv ev st et name = build_eased_value_expr sv ev st et "linear") := by
  constructor
  · intro start stop t
    unfold interpolate_value ease_lookup
    rw [easing_map_lookup_none h]
    rfl
  · intro sv ev st et
    unfold build_eased_value_expr
    rw [easing_exprs_lookup_none h]
    rfl

/-- C5 witness: the unknown name `"bounce"`. -/
theorem unknown_easing_witness :
    (∀ start stop t : ℚ,
        interpolate_value start stop t "bounce" =
          start + (stop - start) * ease_linear (clamp t 0 1)) ∧
    (∀ sv ev st et : ℚ,
        build_eased_value_expr sv ev st et "bounce" = build_eased_value_expr sv ev st et "linear") :=
  unknown_easing_falls_back_to_linear "bounce" (by decide)

/-! ## C4: the expression generator refines the scalar evaluator -/

lemma eval_normalize_time_expr (start stop : ℚ) (env : EvalEnv) :
    (normalize_time_expr start stop).eval env =
      clamp ((env.t - start) / max (1/10000) (stop - start)) 0 1 := rfl

lemma eval_easing_template (name : String) (e : FExpr) (env : EvalEnv) :
    (((EASING_EXPRESSIONS.lookup name).getD (fun t => t)) e).eval env =
      ease_lookup name (e.eval env) := by
  by_cases h1 : name = "linear"
  · subst h1; rfl
  by_cases h2 : name = "ease_in"
  · subst h2; rfl
  by_cases h3 : name = "ease_out"
  · subst h3; rfl
  by_cases h4 : name = "ease_in_out"
  · subst h4
    have hl : EASING_EXPRESSIONS.lookup "ease_in_out" = some (fun t =>
        .ifLt t (.lit (1/2))
          (.mul (.mul (.lit 2) t) t)
          (.sub (.lit 1)
            (.div (.mul (.add (.mul (.lit (-2)) t) (.lit 2)) (.add (.mul (.lit (-2)) t) (.lit 2)))
              (.lit 2)))) := rfl
    rw [hl, ease_lookup_in_out]
    simp only [Option.getD_some, FExpr.eval, ease_in_out_quad]
    split_ifs with hc
    · ring
    · ring
  by_cases h5 : name = "cubic_in"
  · subst h5; rfl
  by_cases h6 : name = "cubic_out"
  · subst h6
    have hl : EASING_EXPRESSIONS.lookup "cubic_out" = some (fun t =>
        .sub (.lit 1)
          (.mul (.mul (.sub (.lit 1) t) (.sub (.lit 1) t)) (.sub (.lit 1) t))) := rfl
    rw [hl, ease_lookup_cout]
    simp only [Option.getD_some, FExpr.eval, ease_out_cubic]
    ring
  by_cases h7 : name = "cubic_in_out"
  · subst h7
    have hl : EASING_EXPRESSIONS.lookup "cubic_in_out" = some (fun t =>
        .ifLt t (.lit (1/2))
          (.mul (.mul (.mul (.lit 4) t) t) t)
          (.sub (.lit 1)
            (.div
              (.mul
                (.mul (.add (.mul (.lit (-2)) t) (.lit 2)) (.add (.mul (.lit (-2)) t) (.lit 2)))
                (.add (.mul (.lit (-2)) t) (.lit 2)))
              (.lit 2)))) := rfl
    rw [hl, ease_lookup_cinout]
    simp only [Option.getD_some, FExpr.eval, ease_in_out_cubic]
    split_ifs with hc
    · ring
    · ring
  · have hmem : name ∉ EASING_NAMES := by
      simp [EASING_NAMES, h1, h2, h3, h4, h5, h6, h7]
    rw [easing_exprs_lookup_none hmem]
    unfold ease_lookup
    rw [easing_map_lookup_none hmem]
    rfl

/-- C4: for every start/end value, time window, easing name and evaluation time, the
generated engine expression evaluates to exactly the scalar interpolation at the same
(floored-denominator) normalized ratio. -/
theorem expression_refines_scalar (sv ev st et : ℚ) (name : String) (env : EvalEnv) :
    ((build_eased_value_expr sv ev st et name).expr).eval env =
      interpolate_value sv ev ((env.t - st) / max (1/10000) (et - st)) name := by
  show (FExpr.add (.lit sv)
      (.mul (.sub (.lit ev) (.lit sv))
        (((EASING_EXPRESSIONS.lookup name).getD (fun t => t)) (normalize_time_expr st et)))).eval
      env = _
  simp only [FExpr.eval, eval_easing_template, eval_normalize_time_expr]
  rfl

/-! ## C6: two_images_center without a character -/

/-- C6: `resolve_layout "two_images_center"` with no character and two images yields
exactly two slots of equal width; the widths plus the fixed 40px gap fill the content
width (the full frame width `OUT_W` when there is no character), and the two slots have
identical y-expressions.  The character side argument is irrelevant in this case. -/
lemma two_images_center_no_stick (s : String) :
    two_images_center false s =
      ⟨"two_images_center",
       [⟨940, SAFE_H, .lit 0, centerYExpr⟩, ⟨940, SAFE_H, .lit 980, centerYExpr⟩],
       none⟩ := by
  unfold two_images_center stickman_position
  norm_num [OUT_W]

lemma resolve_layout_two_images_eq (side : String) :
    resolve_layout "two_images_center" false 2 side =
      (⟨"two_images_center",
        [⟨940, SAFE_H, .lit 0, centerYExpr⟩, ⟨940, SAFE_H, .lit 980, centerYExpr⟩],
        none⟩, []) := by
  have hnorm : py_lower (py_strip
      (if ("two_images_center" : String) = "" then "legacy_single" else "two_images_center")) =
      "two_images_center" := by decide
  simp only [resolve_layout, hnorm, two_images_center_no_stick]
  rw [if_neg (show ¬("two_images_center" : String) = "image_center_only" by decide),
    if_neg (show ¬("two_images_center" : String) = "stickman_center_only" by decide),
    if_neg (show ¬(("two_images_center" : String) = "stickman_left_3img" ∧ (!false) = true) by decide)]
  norm_num

/-- C6: `resolve_layout "two_images_center"` with no character and two images yields
exactly two slots of equal width; the widths plus the fixed 40px gap fill the content
width (the full frame width `OUT_W` when there is no character), and the two slots have
identical y-expressions.  The character side argument is irrelevant in this case. -/
theorem two_images_layout_geometry (side : String) :
    ∃ s1 s2 : ImageSlot,
      (resolve_layout "two_images_center" false 2 side).1.image_slots = [s1, s2] ∧
      s1.target_w = s2.target_w ∧
      s1.target_w + 40 + s2.target_w = OUT_W ∧
      s1.y_expr = s2.y_expr := by
  refine ⟨⟨940, SAFE_H, .lit 0, centerYExpr⟩, ⟨940, SAFE_H, .lit 980, centerYExpr⟩,
    ?_, rfl, by norm_num [OUT_W], rfl⟩
  rw [resolve_layout_two_images_eq]

/-! ## C7: unknown layout names fall back to legacy_single with one warning -/

lemma legacy_single_slots_length (u : Bool) (s : String) :
    (legacy_single u s).image_slots.length = 1 := rfl

/-- C7: for a non-empty layout name whose normalization is none of the five known
layouts, and an image count filling the single default slot, `resolve_layout` returns
exactly the default single-centered layout for the same character arguments, plus
exactly one warning that quotes the unknown layout name. -/
theorem unknown_layout_falls_back (layout_name : String) (use_stickman : Bool)
    (image_count : ℕ) (side : String)
    (hne : layout_name ≠ "")
    (hunknown : py_lower (py_strip layout_name) ∉
      ["image_center_only", "stickman_center_only", "two_images_center",
       "stickman_left_3img", "legacy_single"])
    (hcount : 1 ≤ image_count) :
    resolve_layout layout_name use_stickman image_count side =
      (legacy_single use_stickman (normalize_stickman_side side),
       ["Layout desconhecido \x27" ++ layout_name ++ "\x27. Usando legacy_single."]) := by
  simp only [List.mem_cons, List.not_mem_nil, or_false, not_or] at hunknown
  obtain ⟨h1, h2, h3, h4, h5⟩ := hunknown
  have hn : (if layout_name = "" then "legacy_single" else layout_name) = layout_name :=
    if_neg hne
  simp only [resolve_layout, hn, if_neg h1, if_neg h2, if_neg h3, if_neg h4, if_neg h5]
  rw [if_neg (by simp [h4])]
  rw [if_neg (by rw [legacy_single_slots_length]; omega)]
  simp

/-- C7 witness: the concrete unknown name `"unknown-name"`. -/
theorem unknown_layout_witness :
    resolve_layout "unknown-name" false 1 "left" =
      (legacy_single false (normalize_stickman_side "left"),
       ["Layout desconhecido \x27unknown-name\x27. Usando legacy_single."]) :=
  unknown_layout_falls_back "unknown-name" false 1 "left" (by decide) (by decide) (by decide)

/-! ## C8: the pop_to_final character animation preset -/

/-- C8: `build_stickman_animation` for the pop-in preset (`"pop_to_final"`) with 100
total frames keeps the rest x/y expressions unchanged, and its scale expression
evaluates to 0.7 at frame 0 and to 1.0 at every frame ≥ 30 (= 30% of 100 frames). -/
theorem pop_to_final_animation (rx ry : FExpr) :
    (build_stickman_animation (some ⟨"pop_to_final", none⟩) 100 rx ry).1 = rx ∧
    (build_stickman_animation (some ⟨"pop_to_final", none⟩) 100 rx ry).2.1 = ry ∧
    (∀ env : EvalEnv, env.n = 0 →
      ((build_stickman_animation (some ⟨"pop_to_final", none⟩) 100 rx ry).2.2).eval env = 7/10) ∧
    (∀ env : EvalEnv, 30 ≤ env.n →
      ((build_stickman_animation (some ⟨"pop_to_final", none⟩) 100 rx ry).2.2).eval env = 1) := by
  have hdef : (build_stickman_animation (some ⟨"pop_to_final", none⟩) 100 rx ry).2.2 =
      FExpr.ifLt .varN (.lit ((30 : ℕ) : ℚ))
        (.add (.lit (7/10)) (.div (.mul (.lit (3/10)) .varN) (.lit ((30 : ℕ) : ℚ))))
        (.lit 1) := rfl
  refine ⟨rfl, rfl, ?_, ?_⟩
  · intro env hn
    rw [hdef]
    simp only [FExpr.eval]
    rw [if_pos (by rw [hn]; norm_num), hn]
    norm_num
  · intro env hn
    rw [hdef]
    simp only [FExpr.eval]
    rw [if_neg (by push_cast; linarith)]

/-- C8 witness: concrete rest expressions 500/300, frame 0 and frame 45. -/
theorem pop_to_final_witness :
    (build_stickman_animation (some ⟨"pop_to_final", none⟩) 100 (.lit 500) (.lit 300)).1 =
      .lit 500 ∧
    (build_stickman_animation (some ⟨"pop_to_final", none⟩) 100 (.lit 500) (.lit 300)).2.1 =
      .lit 300 ∧
    ((build_stickman_animation (some ⟨"pop_to_final", none⟩) 100 (.lit 500) (.lit 300)).2.2).eval
      { n := 0 } = 7/10 ∧
    ((build_stickman_animation (some ⟨"pop_to_final", none⟩) 100 (.lit 500) (.lit 300)).2.2).eval
      { n := 45 } = 1 :=
  ⟨(pop_to_final_animation (.lit 500) (.lit 300)).1,
   (pop_to_final_animation (.lit 500) (.lit 300)).2.1,
   (pop_to_final_animation (.lit 500) (.lit 300)).2.2.1 { n := 0 } rfl,
   (pop_to_final_animation (.lit 500) (.lit 300)).2.2.2 { n := 45 } (by norm_num)⟩

/-! ## C9: missing character asset is fatal; everything else accumulates as warnings -/

lemma render_images_warnings_prefix (probe : String → ℕ → ℕ → ℕ × ℕ) (spec : ClipSpec)
    (layout : LayoutResult) (tf : ℕ) (ta : String) (tas : ℕ) (tm : ℤ) :
    ∀ (imgs : List ImageLayer) (idx : ℕ) (st : ImgLoopState),
      ∃ extra, (render_images probe spec layout tf ta tas tm idx imgs st).warnings =
        st.warnings ++ extra := by
  intro imgs
  induction imgs with
  | nil =>
      intro idx st
      exact ⟨[], by simp [render_images]⟩
  | cons img rest ih =>
      intro idx st
      cases hslot : layout.image_slots.get? idx with
      | none =>
          obtain ⟨e, he⟩ := ih (idx + 1)
            { st with warnings := st.warnings ++
                ["Imagem extra ignorada no layout " ++ layout.name ++ ": " ++ img.path] }
          refine ⟨["Imagem extra ignorada no layout " ++ layout.name ++ ": " ++ img.path] ++ e, ?_⟩
          rw [render_images, hslot]
          rw [he]
          simp
      | some slot =>
          obtain ⟨e, he⟩ := ih (idx + 1) _
          refine ⟨e, ?_⟩
          rw [render_images, hslot]
          exact he

/-- C9: (fatal part) in `process_job`, when the resolved layout provides a character
anchor but no valid character asset path is configured (missing config or empty path),
the per-clip compilation raises (`Except.error`), substituting nothing; (warning part)
`render_clip` always returns a plan whose warning list is the layout-resolution warnings
followed by any per-image warnings — warnings accumulate with a successful result. -/
theorem missing_stickman_fatal_warnings_accumulate (pos : FExpr × FExpr)
    (cfg_path : Option String) (speech : String) (anim : Option StickmanAnim)
    (out_clip : String) (hmissing : cfg_path = none ∨ cfg_path = some "") :
    resolve_stickman_layer true (some pos) cfg_path speech anim out_clip =
      .error ("Stickman não encontrado para clip " ++ out_clip) ∧
    ∀ (probe : String → ℕ → ℕ → ℕ × ℕ) (spec : ClipSpec),
      ∃ extra, (render_clip probe spec).warnings =
        (resolve_layout spec.layout spec.stickman.isSome spec.images.length
          spec.stickman_position).2 ++ extra := by
  constructor
  · rcases hmissing with h | h <;> subst h <;> rfl
  · intro probe spec
    simp only [render_clip]
    exact render_images_warnings_prefix probe spec _ _ _ _ _ spec.images 0 _

/-- C9 witness: concrete missing-path configuration and a concrete clip spec. -/
theorem missing_stickman_witness :
    resolve_stickman_layer true (some (.lit 25, centerYExpr)) none "" none "clip_000.mp4" =
      .error "Stickman não encontrado para clip clip_000.mp4" ∧
    ∀ (probe : String → ℕ → ℕ → ℕ × ℕ) (spec : ClipSpec),
      ∃ extra, (render_clip probe spec).warnings =
        (resolve_layout spec.layout spec.stickman.isSome spec.images.length
          spec.stickman_position).2 ++ extra :=
  ⟨(missing_stickman_fatal_warnings_accumulate (.lit 25, centerYExpr) none "" none
      "clip_000.mp4" (Or.inl rfl)).1,
   (missing_stickman_fatal_warnings_accumulate (.lit 25, centerYExpr) none "" none
      "clip_000.mp4" (Or.inl rfl)).2⟩

/-! ## C1: the empty clip (no images, no caption, no character) -/

lemma insufficient_legacy (ns : String) :
    insufficient_warning (legacy_single false ns) 0 =
      "Imagens insuficientes para layout legacy_single. Esperado 1, recebido 0." := by
  unfold insufficient_warning
  rw [show (legacy_single false ns).name = "legacy_single" from rfl,
    legacy_single_slots_length]
  rfl

lemma resolve_layout_legacy_empty (side : String) :
    resolve_layout "legacy_single" false 0 side =
      (legacy_single false (normalize_stickman_side side),
       ["Imagens insuficientes para layout legacy_single. Esperado 1, recebido 0."]) := by
  have hnorm : py_lower (py_strip
      (if ("legacy_single" : String) = "" then "legacy_single" else "legacy_single")) =
      "legacy_single" := by decide
  simp only [resolve_layout, hnorm]
  rw [if_neg (show ¬("legacy_single" : String) = "image_center_only" by decide),
    if_neg (show ¬("legacy_single" : String) = "stickman_center_only" by decide),
    if_neg (show ¬(("legacy_single" : String) = "stickman_left_3img" ∧ (!false) = true) by decide),
    if_neg (show ¬("legacy_single" : String) = "two_images_center" by decide),
    if_neg (show ¬("legacy_single" : String) = "stickman_left_3img" by decide)]
  simp [legacy_single_slots_length, insufficient_legacy]

/-- C1 amended: a ClipSpec with zero images, no caption, no character and the default
layout compiles to a plan whose filter graph is exactly the background node (zero
overlay nodes), but with exactly one warning (insufficient images for the single-slot
default layout) rather than an empty warning list. -/
theorem empty_clip_plan (probe : String → ℕ → ℕ → ℕ × ℕ) (spec : ClipSpec)
    (h1 : spec.images = []) (h2 : spec.text = none) (h3 : spec.stickman = none)
    (h4 : spec.layout = "legacy_single") :
    (render_clip probe spec).filters = [.bgFormat 0] ∧
    ((render_clip probe spec).filters.filter isOverlayNode).length = 0 ∧
    (render_clip probe spec).warnings =
      ["Imagens insuficientes para layout legacy_single. Esperado 1, recebido 0."] := by
  simp only [render_clip, h1, h2, h3, h4, List.length_nil, Option.isSome_none,
    resolve_layout_legacy_empty, render_images, truthy_str, List.map_nil]
  simp [isOverlayNode]

def empty_clip_spec : ClipSpec :=
  { duration := 1, fps := 25, width := 1920, height := 1080, layout := "legacy_single" }

/-- C1 counterexample: on the concrete empty clip, the warning list is NOT empty (it
holds the insufficient-images warning), refuting the zero-warnings clause. -/
theorem empty_clip_counterexample :
    (render_clip (fun _ tw th => (tw, th)) empty_clip_spec).warnings ≠ [] := by
  have h : (render_clip (fun _ tw th => (tw, th)) empty_clip_spec).warnings =
      ["Imagens insuficientes para layout legacy_single. Esperado 1, recebido 0."] := by decide
  rw [h]
  exact List.cons_ne_nil _ _

/-- C1 witness for the amended statement: the concrete empty clip. -/
theorem empty_clip_witness :
    (render_clip (fun _ tw th => (tw, th)) empty_clip_spec).filters = [.bgFormat 0] ∧
    ((render_clip (fun _ tw th => (tw, th)) empty_clip_spec).filters.filter
      isOverlayNode).length = 0 ∧
    (render_clip (fun _ tw th => (tw, th)) empty_clip_spec).warnings =
      ["Imagens insuficientes para layout legacy_single. Esperado 1, recebido 0."] :=
  empty_clip_plan (fun _ tw th => (tw, th)) empty_clip_spec rfl rfl rfl rfl

/-! ## Sortedness helpers for the keyframe interpolator (C3, C10) -/

def kfLt (a b : KeyframeSpec) : Prop := a.time < b.time

instance : IsAntisymm KeyframeSpec kfLt := ⟨fun _ _ h1 h2 => (lt_asymm h1 h2).elim⟩

lemma sorted_keyframes_id {l : List KeyframeSpec} (h : List.Pairwise kfLe l) :
    sorted_keyframes l = l :=
  List.Sorted.insertionSort_eq h

lemma interpolate_keyframes_cons (first : KeyframeSpec) (rest : List KeyframeSpec)
    (h : List.Pairwise kfLe (first :: rest)) (t : ℚ) :
    interpolate_keyframes (first :: rest) t = interpolate_sorted first rest t := by
  unfold interpolate_keyframes
  rw [sorted_keyframes_id h]

lemma time_le_of_head {x : KeyframeSpec} {l : List KeyframeSpec}
    (h : List.Pairwise kfLe (x :: l)) {y : KeyframeSpec} (hy : y ∈ x :: l) :
    x.time ≤ y.time := by
  rcases List.mem_cons.mp hy with rfl | hy
  · exact le_refl _
  · exact (List.pairwise_cons.mp h).1 y hy

lemma time_le_getLast :
    ∀ (l : List KeyframeSpec) (hne : l ≠ []), List.Pairwise kfLe l →
      ∀ {y : KeyframeSpec}, y ∈ l → y.time ≤ (l.getLast hne).time := by
  intro l
  induction l with
  | nil => intro hne; exact absurd rfl hne
  | cons a l ih =>
      intro hne h y hy
      cases l with
      | nil =>
          have : y = a := by simpa using hy
          subst this
          exact le_refl _
      | cons b l2 =>
          rw [List.getLast_cons (List.cons_ne_nil b l2)]
          rcases List.mem_cons.mp hy with rfl | hy2
          · exact (List.pairwise_cons.mp h).1 _ (List.getLast_mem (List.cons_ne_nil b l2))
          · exact ih (List.cons_ne_nil b l2) (List.pairwise_cons.mp h).2 hy2

lemma find_segment_append (t : ℚ) :
    ∀ (pre : List KeyframeSpec) (current nxt : KeyframeSpec) (post : List KeyframeSpec),
      List.Pairwise kfLe (pre ++ current :: nxt :: post) →
      current.time < t → t < nxt.time →
      find_segment t (pre ++ current :: nxt :: post) = some (current, nxt) := by
  intro pre
  induction pre with
  | nil =>
      intro current nxt post _ h1 h2
      simp only [List.nil_append, find_segment]
      rw [if_pos ⟨le_of_lt h1, le_of_lt h2⟩]
  | cons a pre ih =>
      intro current nxt post hp h1 h2
      have hp2 : List.Pairwise kfLe (pre ++ current :: nxt :: post) :=
        (List.pairwise_cons.mp (by simpa using hp)).2
      cases hpre : pre with
      | nil =>
          subst hpre
          simp only [List.nil_append] at hp2 ⊢
          show find_segment t (a :: current :: nxt :: post) = some (current, nxt)
          rw [find_segment, if_neg (fun hc => absurd hc.2 (not_le.mpr h1))]
          simpa using ih current nxt post (by simpa using hp2) h1 h2
      | cons b pre2 =>
          subst hpre
          have hb_le : b.time ≤ current.time := by
            refine time_le_of_head (x := b) (l := pre2 ++ current :: nxt :: post) ?_ ?_
            · simpa using hp2
            · exact List.mem_cons.mpr (Or.inr
                (List.mem_append.mpr (Or.inr (List.mem_cons_self _ _))))
          show find_segment t (a :: b :: (pre2 ++ current :: nxt :: post)) = some (current, nxt)
          rw [find_segment,
            if_neg (fun hc => absurd hc.2 (not_le.mpr (lt_of_le_of_lt hb_le h1)))]
          simpa using ih current nxt post (by simpa using hp2) h1 h2

lemma find_segment_isSome (t : ℚ) :
    ∀ (l : List KeyframeSpec) (hne : l ≠ []), List.Pairwise kfLe l →
      (l.head hne).time < t → t < (l.getLast hne).time →
      (find_segment t l).isSome = true := by
  intro l
  induction l with
  | nil => intro hne; exact absurd rfl hne
  | cons a l ih =>
      intro hne hp h1 h2
      cases l with
      | nil =>
          exact absurd (lt_trans h1 h2) (lt_irrefl _)
      | cons b l2 =>
          rw [find_segment]
          by_cases hc : a.time ≤ t ∧ t ≤ b.time
          · rw [if_pos hc]; rfl
          · rw [if_neg hc]
            have hb : b.time < t := by
              by_contra hb
              exact hc ⟨le_of_lt h1, le_of_not_lt hb⟩
            refine ih (List.cons_ne_nil b l2) (List.pairwise_cons.mp hp).2 hb ?_
            calc t < ((a :: b :: l2).getLast hne).time := h2
              _ = ((b :: l2).getLast (List.cons_ne_nil b l2)).time := by
                  rw [List.getLast_cons (List.cons_ne_nil b l2)]

lemma lookup_keyfun (g : String → ℚ) :
    ∀ (keys : List String) (k : String), k ∈ keys →
      (keys.map (fun key => (key, g key))).lookup k = some (g k) := by
  intro keys
  induction keys with
  | nil => intro k hk; cases hk
  | cons a keys ih =>
      intro k hk
      by_cases hka : k = a
      · subst hka
        simp [List.lookup]
      · rcases List.mem_cons.mp hk with rfl | hk2
        · exact absurd rfl hka
        · simp only [List.map_cons, List.lookup, beq_eq_false_iff_ne.mpr hka]
          exact ih k hk2

/-- The per-key value the claim describes for a bracketing segment: a key missing on one
side defaults to the other side (0 if missing on both), the end value defaults to the
start value, and the segment-start easing is applied to the clamped normalized ratio
with the 0.0001 denominator floor. -/
def claimed_segment_blend (current nxt : KeyframeSpec) (t : ℚ) (key : String) : ℚ :=
  let start_val := (current.value.lookup key).getD ((nxt.value.lookup key).getD 0)
  let end_val := (nxt.value.lookup key).getD start_val
  start_val + (end_val - start_val) *
    ease_lookup current.easing
      (clamp ((t - current.time) / max (1/10000) (nxt.time - current.time)) 0 1)

lemma segment_values_lookup (current nxt : KeyframeSpec) (t : ℚ) (key : String)
    (hk : key ∈ current.value.map Prod.fst ∨ key ∈ nxt.value.map Prod.fst) :
    (segment_values current nxt t).lookup key =
      some (claimed_segment_blend current nxt t key) := by
  have hmem : key ∈ (current.value.map Prod.fst ++ nxt.value.map Prod.fst).dedup := by
    rw [List.mem_dedup, List.mem_append]; exact hk
  exact lookup_keyfun (fun k => claimed_segment_blend current nxt t k) _ key hmem

/-! ## C3: scalar interpolation, amended with the 0.0001 denominator floor -/

/-- C3 amended: for a strictly time-sorted keyframe list of length at least 2, the
scalar interpolator returns exactly the first keyframe values at or before the first
time, exactly the last keyframe values at or after the last time, and for t strictly
inside an adjacent segment it returns, for every key in the union of the two key sets,
the segment-start easing applied to the clamped ratio whose denominator is floored at
0.0001 (`claimed_segment_blend`), with the one-sided defaulting rule. -/
theorem keyframe_interpolation_characterization (kfs : List KeyframeSpec)
    (hsorted : List.Pairwise kfLt kfs) (hlen : 2 ≤ kfs.length) :
    (∀ (t : ℚ) (first : KeyframeSpec), kfs.head? = some first → t ≤ first.time →
      interpolate_keyframes kfs t = some ⟨t, first.value⟩) ∧
    (∀ (t : ℚ) (last : KeyframeSpec), kfs.getLast? = some last → last.time ≤ t →
      interpolate_keyframes kfs t = some ⟨t, last.value⟩) ∧
    (∀ (pre : List KeyframeSpec) (current nxt : KeyframeSpec) (post : List KeyframeSpec)
        (t : ℚ), kfs = pre ++ current :: nxt :: post →
      current.time < t → t < nxt.time →
      ∃ vals, interpolate_keyframes kfs t = some ⟨t, vals⟩ ∧
        ∀ key, (key ∈ current.value.map Prod.fst ∨ key ∈ nxt.value.map Prod.fst) →
          vals.lookup key = some (claimed_segment_blend current nxt t key)) := by
  have hle : List.Pairwise kfLe kfs := hsorted.imp (fun h => le_of_lt h)
  obtain ⟨first0, rest0, rfl⟩ : ∃ a l, kfs = a :: l := by
    cases kfs with
    | nil => simp at hlen
    | cons a l => exact ⟨a, l, rfl⟩
  have hrest : rest0 ≠ [] := by
    intro h
    subst h
    simp at hlen
  refine ⟨?_, ?_, ?_⟩
  · intro t first h1 ht
    have : first = first0 := by
      rw [List.head?_cons] at h1
      exact (Option.some.injEq _ _ ▸ h1).symm
    subst this
    rw [interpolate_keyframes_cons _ _ hle]
    unfold interpolate_sorted
    rw [if_pos ht]
  · intro t last h1 ht
    have hgl : (first0 :: rest0).getLast (List.cons_ne_nil first0 rest0) = last := by
      rw [List.getLast?_eq_getLast_of_ne_nil (List.cons_ne_nil first0 rest0)] at h1
      exact Option.some.injEq _ _ ▸ h1
    have hfl : first0.time < last.time := by
      rw [← hgl, List.getLast_cons hrest]
      exact (List.pairwise_cons.mp hsorted).1 _ (List.getLast_mem hrest)
    rw [interpolate_keyframes_cons _ _ hle]
    unfold interpolate_sorted
    rw [if_neg (not_le.mpr (lt_of_lt_of_le hfl ht)), if_pos (by rw [hgl]; exact ht), hgl]
  · intro pre current nxt post t heq hct htn
    have hcur_mem : current ∈ first0 :: rest0 := by
      rw [heq]
      exact List.mem_append.mpr (Or.inr (List.mem_cons_self _ _))
    have hnxt_mem : nxt ∈ first0 :: rest0 := by
      rw [heq]
      exact List.mem_append.mpr (Or.inr (List.mem_cons.mpr (Or.inr (List.mem_cons_self _ _))))
    have hnot1 : ¬ t ≤ first0.time :=
      not_le.mpr (lt_of_le_of_lt (time_le_of_head hle hcur_mem) hct)
    have hnot2 : ¬ ((first0 :: rest0).getLast (List.cons_ne_nil first0 rest0)).time ≤ t :=
      not_le.mpr (lt_of_lt_of_le htn (time_le_getLast _ _ hle hnxt_mem))
    have hfind : find_segment t (first0 :: rest0) = some (current, nxt) := by
      rw [heq]
      exact find_segment_append t pre current nxt post (heq ▸ hle) hct htn
    rw [interpolate_keyframes_cons _ _ hle]
    unfold interpolate_sorted
    rw [if_neg hnot1, if_neg hnot2, hfind]
    exact ⟨segment_values current nxt t, rfl,
      fun key hk => segment_values_lookup current nxt t key hk⟩

def seg_wit_a : KeyframeSpec := ⟨0, [("x", 0)], "linear"⟩
def seg_wit_b : KeyframeSpec := ⟨1, [("x", 1)], "linear"⟩

/-- C3 witness: the theorem applied to the concrete two-keyframe list
x: 0→1 over [0,1], queried before, inside (t = 1/2, giving 1/2) and after. -/
theorem keyframe_interpolation_witness :
    interpolate_keyframes [seg_wit_a, seg_wit_b] (-1) = some ⟨-1, [("x", 0)]⟩ ∧
    interpolate_keyframes [seg_wit_a, seg_wit_b] 2 = some ⟨2, [("x", 1)]⟩ ∧
    ∃ vals, interpolate_keyframes [seg_wit_a, seg_wit_b] (1/2) = some ⟨1/2, vals⟩ ∧
      vals.lookup "x" = some (1/2) := by
  have h := keyframe_interpolation_characterization [seg_wit_a, seg_wit_b]
    (by norm_num [List.pairwise_cons, kfLt, seg_wit_a, seg_wit_b]) (by norm_num)
  refine ⟨?_, ?_, ?_⟩
  · simpa [seg_wit_a] using h.1 (-1) seg_wit_a rfl (by norm_num [seg_wit_a])
  · simpa [seg_wit_b] using h.2.1 2 seg_wit_b rfl (by norm_num [seg_wit_b])
  · obtain ⟨vals, hv, hk⟩ := h.2.2 [] seg_wit_a seg_wit_b [] (1/2) rfl
      (by norm_num [seg_wit_a]) (by norm_num [seg_wit_b])
    refine ⟨vals, hv, ?_⟩
    rw [hk "x" (Or.inl (by simp [seg_wit_a]))]
    norm_num [claimed_segment_blend, seg_wit_a, seg_wit_b, ease_lookup, EASING_MAP,
      List.lookup, clamp, ease_linear, max_def, min_def]

def tiny_a : KeyframeSpec := ⟨0, [("x", 0)], "linear"⟩
def tiny_b : KeyframeSpec := ⟨1/20000, [("x", 1)], "linear"⟩

/-- C3 counterexample: for a strictly sorted segment shorter than 0.0001s (times 0 and
1/20000) queried at its midpoint 1/40000, the interpolator returns 1/4 for "x" (the
code divides by the floored span 1/10000), while the claim ratio (t−start)/(end−start)
blended linearly between 0 and 1 gives 1/2 — so the claim as stated is false here. -/
theorem keyframe_ratio_counterexample :
    tiny_a.time < 1/40000 ∧ (1/40000 : ℚ) < tiny_b.time ∧
    (∃ vals, interpolate_keyframes [tiny_a, tiny_b] (1/40000) = some ⟨1/40000, vals⟩ ∧
      vals.lookup "x" = some (1/4)) ∧
    interpolate_value 0 1 ((1/40000 - tiny_a.time) / (tiny_b.time - tiny_a.time)) "linear" =
      1/2 ∧
    (1/4 : ℚ) ≠ 1/2 := by
  have h := keyframe_interpolation_characterization [tiny_a, tiny_b]
    (by norm_num [List.pairwise_cons, kfLt, tiny_a, tiny_b]) (by norm_num)
  obtain ⟨vals, hv, hk⟩ := h.2.2 [] tiny_a tiny_b [] (1/40000) rfl
    (by norm_num [tiny_a]) (by norm_num [tiny_b])
  refine ⟨by norm_num [tiny_a], by norm_num [tiny_b], ⟨vals, hv, ?_⟩, ?_, by norm_num⟩
  · rw [hk "x" (Or.inl (by simp [tiny_a]))]
    norm_num [claimed_segment_blend, tiny_a, tiny_b, ease_lookup, EASING_MAP,
      List.lookup, clamp, ease_linear, max_def, min_def]
  · norm_num [interpolate_value, tiny_a, tiny_b, ease_lookup, EASING_MAP,
      List.lookup, clamp, ease_linear, max_def, min_def]

/-! ## C10: totality on non-empty input; permutation invariance only for distinct times -/

/-- C10 amended: the interpolator returns a result (`isSome`) for every non-empty
keyframe sequence and every time (it returns `none` only on the empty sequence), and
its result is invariant under permutation of the input provided the keyframe times are
pairwise distinct (with duplicate times, the stable sort makes the result depend on the
input order). -/
theorem interpolate_total_and_perm_invariant :
    (∀ (kfs : List KeyframeSpec) (t : ℚ), kfs ≠ [] →
      (interpolate_keyframes kfs t).isSome = true) ∧
    (∀ (kfs1 kfs2 : List KeyframeSpec) (t : ℚ), kfs1.Perm kfs2 →
      (kfs1.map KeyframeSpec.time).Nodup →
      interpolate_keyframes kfs1 t = interpolate_keyframes kfs2 t) := by
  constructor
  · intro kfs t hne
    cases hs : sorted_keyframes kfs with
    | nil =>
        exfalso
        apply hne
        have hlen := congrArg List.length hs
        rw [sorted_keyframes, List.length_insertionSort] at hlen
        exact List.eq_nil_of_length_eq_zero hlen
    | cons first rest =>
        have hsorted : List.Pairwise kfLe (first :: rest) := by
          rw [← hs]
          exact List.sorted_insertionSort kfLe kfs
        have hred : interpolate_keyframes kfs t = interpolate_sorted first rest t := by
          unfold interpolate_keyframes
          rw [hs]
        rw [hred]
        unfold interpolate_sorted
        by_cases h1 : t ≤ first.time
        · rw [if_pos h1]; rfl
        · rw [if_neg h1]
          by_cases h2 : ((first :: rest).getLast (List.cons_ne_nil first rest)).time ≤ t
          · rw [if_pos h2]; rfl
          · rw [if_neg h2]
            obtain ⟨pr, hpr⟩ := Option.isSome_iff_exists.mp
              (find_segment_isSome t (first :: rest) (List.cons_ne_nil first rest) hsorted
                (not_le.mp h1) (not_le.mp h2))
            rw [hpr]
            obtain ⟨c, n⟩ := pr
            rfl
  · intro kfs1 kfs2 t hperm hnodup
    have hperm1 : List.Perm (sorted_keyframes kfs1) kfs1 := List.perm_insertionSort kfLe kfs1
    have hperm2 : List.Perm (sorted_keyframes kfs2) kfs2 := List.perm_insertionSort kfLe kfs2
    have hp : List.Perm (sorted_keyframes kfs1) (sorted_keyframes kfs2) :=
      hperm1.trans (hperm.trans hperm2.symm)
    have hnd1 : ((sorted_keyframes kfs1).map KeyframeSpec.time).Nodup :=
      ((hperm1.map KeyframeSpec.time).nodup_iff).mpr hnodup
    have hnd2 : ((sorted_keyframes kfs2).map KeyframeSpec.time).Nodup :=
      ((hp.map KeyframeSpec.time).nodup_iff).mp hnd1
    have hlt1 : List.Pairwise kfLt (sorted_keyframes kfs1) :=
      ((List.sorted_insertionSort kfLe kfs1).and (List.pairwise_map.mp hnd1)).imp
        (fun h => lt_of_le_of_ne h.1 h.2)
    have hlt2 : List.Pairwise kfLt (sorted_keyframes kfs2) :=
      ((List.sorted_insertionSort kfLe kfs2).and (List.pairwise_map.mp hnd2)).imp
        (fun h => lt_of_le_of_ne h.1 h.2)
    have heq : sorted_keyframes kfs1 = sorted_keyframes kfs2 :=
      List.eq_of_perm_of_sorted hp hlt1 hlt2
    unfold interpolate_keyframes
    rw [heq]

def perm_cex_a : KeyframeSpec := ⟨0, [("x", 0)], "linear"⟩
def perm_cex_b : KeyframeSpec := ⟨0, [("x", 1)], "linear"⟩

/-- C10 counterexample: two keyframes sharing time 0 with different values.  Swapping
them is a permutation, yet the interpolator (stable sort, then first keyframe at
`t ≤ first.time`) returns x = 0 for one order and x = 1 for the other. -/
theorem interpolate_perm_counterexample :
    List.Perm [perm_cex_a, perm_cex_b] [perm_cex_b, perm_cex_a] ∧
    interpolate_keyframes [perm_cex_a, perm_cex_b] 0 ≠
      interpolate_keyframes [perm_cex_b, perm_cex_a] 0 := by
  refine ⟨List.Perm.swap perm_cex_b perm_cex_a [], ?_⟩
  have h1 : interpolate_keyframes [perm_cex_a, perm_cex_b] 0 =
      some ⟨0, perm_cex_a.value⟩ := by
    rw [interpolate_keyframes_cons _ _
      (by norm_num [List.pairwise_cons, kfLe, perm_cex_a, perm_cex_b])]
    unfold interpolate_sorted
    rw [if_pos (by norm_num [perm_cex_a])]
  have h2 : interpolate_keyframes [perm_cex_b, perm_cex_a] 0 =
      some ⟨0, perm_cex_b.value⟩ := by
    rw [interpolate_keyframes_cons _ _
      (by norm_num [List.pairwise_cons, kfLe, perm_cex_a, perm_cex_b])]
    unfold interpolate_sorted
    rw [if_pos (by norm_num [perm_cex_b])]
  rw [h1, h2]
  simp [perm_cex_a, perm_cex_b]

def perm_wit_a : KeyframeSpec := ⟨0, [("x", 0)], "linear"⟩
def perm_wit_b : KeyframeSpec := ⟨1, [("x", 2)], "linear"⟩

/-- C10 witness: the theorem applied to a singleton list (totality) and to a swapped
pair with distinct times 0 and 1 (permutation invariance). -/
theorem interpolate_perm_witness :
    (interpolate_keyframes [perm_wit_a] 5).isSome = true ∧
    interpolate_keyframes [perm_wit_a, perm_wit_b] (1/2) =
      interpolate_keyframes [perm_wit_b, perm_wit_a] (1/2) :=
  ⟨interpolate_total_and_perm_invariant.1 [perm_wit_a] 5 (List.cons_ne_nil _ _),
   interpolate_total_and_perm_invariant.2 [perm_wit_a, perm_wit_b]
     [perm_wit_b, perm_wit_a] (1/2) (List.Perm.swap perm_wit_b perm_wit_a [])
     (by norm_num [perm_wit_a, perm_wit_b])⟩

end ClipForge
